import Mathlib

/-!
Shallow embedding of the CopilotKit streaming chat subsystem:
the `useChat` hook (message list, loading flag, `append`/`reload`/`stop`,
and the per-turn event fold of `runChatCompletion`) together with the
`UnifyAdapter.process` message filtering.

The hook's React state cells (`messages`, `isLoading`) are modelled by
explicit state passing; a turn's streaming-client events are modelled as a
list of `ClientEvent`s folded over the turn state, exactly mirroring the
four listeners registered in `runChatCompletion`.

React semantics matter here: `messages` is a render-scope `const`, and a
`setMessages(...)` call only queues a replacement for the next render — it
never updates the binding the currently executing handler (and the turn's
listeners) close over.  `append`, `reload` and `runChatCompletion` are
created in the same render, so a turn started synchronously after a
`setMessages` still reads the pre-update list, and every `setMessages`
issued by the turn is computed from that same stale binding; the last
queued write wins.  The embedding therefore hands the pre-update state to
`runChatCompletion` and records the superseded queued writes as inert
`let` bindings.
-/

namespace CopilotChat

/-- A function-call payload delivered by the streaming client:
name plus accumulated arguments. -/
structure FunctionCall where
  name : String
  arguments : String
  deriving DecidableEq

/-- A chat message as held by the `useChat` hook: identifier, creation
timestamp, role, textual content, and an optional function-call payload. -/
structure Message where
  id : String
  createdAt : Nat
  role : String
  content : String
  function_call : Option FunctionCall := none
  deriving DecidableEq

/-- A caller-supplied function declaration, forwarded verbatim. -/
structure FunctionDecl where
  name : String
  description : String
  parameters : String
  deriving DecidableEq

/-- The `useChat` hook's state cells: the ordered message list and the
`isLoading` flag (`input` is fully decoupled and not modelled). -/
structure ChatState where
  messages : List Message
  isLoading : Bool
  deriving DecidableEq

/-- The options of `useChat` relevant to request construction:
`systemMessages` and `functions` (endpoint url and headers carry no
state-machine content). -/
structure UseChatOptions where
  systemMessages : List Message := []
  functions : List FunctionDecl := []

/-- One event emitted by the streaming client during a turn:
a `content` delta, the terminal `end`, a terminal `error`, or a
`function` call. -/
inductive ClientEvent where
  | content (delta : String)
  | endStream
  | errorEvent (message : String)
  | functionEvent (call : FunctionCall)
  deriving DecidableEq

/-- The body handed to `client.fetch`: the context messages and the
function declarations. -/
structure FetchBody where
  messages : List Message
  functions : List FunctionDecl
  deriving DecidableEq

/-- The fresh assistant message of a turn, as published by the listeners:
`{ id: nanoid(), createdAt: new Date(), content, role: "assistant" }`
with the (optional) function call attached. -/
def mkAssistantMessage (aid : String) (now : Nat) (content : String)
    (fc : Option FunctionCall) : Message :=
  { id := aid, createdAt := now, role := "assistant", content := content,
    function_call := fc }

/-- The mutable context of one in-flight turn: the published hook state,
the pending assistant message's accumulating content and function call,
whether the four listeners are still attached (`cleanup` detaches them),
and the promise outcome (`none` while pending, `Except.error` on
rejection, `Except.ok` on resolution). -/
structure TurnExec where
  chat : ChatState
  assistantContent : String
  assistantFC : Option FunctionCall
  attached : Bool
  outcome : Option (Except String Message)

/-- One listener dispatch of `runChatCompletion`.  When the listeners have
been detached by `cleanup`, the event is dropped.  Otherwise:
`content` appends the delta and republishes `[...messages, assistant]`;
`end` sets `isLoading` false, detaches, and resolves with a copy of the
assistant message; `error` sets `isLoading` false, detaches, and rejects;
`function` attaches the call, republishes, sets `isLoading` false,
detaches, and resolves early. -/
def handleEvent (captured : List Message) (aid : String) (now : Nat)
    (t : TurnExec) (e : ClientEvent) : TurnExec :=
  if t.attached then
    match e with
    | .content c =>
        let newContent := t.assistantContent ++ c
        { t with
          assistantContent := newContent,
          chat := { t.chat with
            messages := captured ++ [mkAssistantMessage aid now newContent t.assistantFC] } }
    | .endStream =>
        { t with
          chat := { t.chat with isLoading := false },
          attached := false,
          outcome := some (Except.ok (mkAssistantMessage aid now t.assistantContent t.assistantFC)) }
    | .errorEvent err =>
        { t with
          chat := { t.chat with isLoading := false },
          attached := false,
          outcome := some (Except.error err) }
    | .functionEvent fc =>
        { t with
          assistantFC := some fc,
          chat := { messages := captured ++ [mkAssistantMessage aid now t.assistantContent (some fc)],
                    isLoading := false },
          attached := false,
          outcome := some (Except.ok (mkAssistantMessage aid now t.assistantContent (some fc))) }
  else t

/-- The observable result of a completion turn: the body handed to
`client.fetch`, the hook state after all delivered events, the promise
outcome, and whether the listeners are still attached. -/
structure TurnOutput where
  fetchBody : FetchBody
  finalState : ChatState
  outcome : Option (Except String Message)
  listenersAttached : Bool

/-- Embedding of `runChatCompletion`: set `isLoading`, publish
`[...messages, assistantMessage]`, build
`messagesWithContext = [...systemMessages, ...messages]` from the
captured message list, register the four listeners, and fetch; the
delivered events are then folded by `handleEvent`.  `aid` stands for the
`nanoid()` of the assistant message and `now` for its `new Date()`. -/
def runChatCompletion (options : UseChatOptions) (aid : String) (now : Nat)
    (s : ChatState) (events : List ClientEvent) : TurnOutput :=
  let captured := s.messages
  let init : TurnExec :=
    { chat := { messages := captured ++ [mkAssistantMessage aid now "" none],
                isLoading := true },
      assistantContent := "", assistantFC := none, attached := true,
      outcome := none }
  let final := events.foldl (handleEvent captured aid now) init
  { fetchBody := { messages := options.systemMessages ++ captured,
                   functions := options.functions },
    finalState := final.chat,
    outcome := final.outcome,
    listenersAttached := final.attached }

/-- Embedding of `append`: returns without effect (and without a request)
while `isLoading`.  Otherwise `setMessages([...messages, message])` queues
`s.messages ++ [message]`, but the render-scope `messages` binding that
`runChatCompletion` closes over still holds the pre-append list, so the
turn runs on `s` unchanged; the turn's own initial
`setMessages([...messages, assistantMessage])` (also computed from the
stale binding) supersedes the queued append, so the appended message also
does not survive in the final state.  The second component is `none`
exactly when no request was issued to the streaming client. -/
def append (options : UseChatOptions) (aid : String) (now : Nat)
    (s : ChatState) (message : Message) (events : List ClientEvent) :
    ChatState × Option TurnOutput :=
  if s.isLoading then (s, none)
  else
    let _queued : List Message := s.messages ++ [message]
    let out := runChatCompletion options aid now s events
    (out.finalState, some out)

/-- Embedding of `reload`: returns without effect while `isLoading` or on
an empty history.  Otherwise, when the last message's role is
`"assistant"`, `setMessages(messages.slice(0, -1))` queues the shortened
list, but the render-scope `messages` binding that `runChatCompletion`
closes over still holds the unsliced list, so the turn runs on `s`
unchanged and the turn's own publishes (computed from the same stale
binding) supersede the queued slice. -/
def reload (options : UseChatOptions) (aid : String) (now : Nat)
    (s : ChatState) (events : List ClientEvent) :
    ChatState × Option TurnOutput :=
  if s.isLoading || s.messages.length == 0 then (s, none)
  else
    match s.messages.getLast? with
    | none => (s, none)
    | some lastMessage =>
        let _queued : List Message :=
          if lastMessage.role == "assistant" then s.messages.dropLast
          else s.messages
        let out := runChatCompletion options aid now s events
        (out.finalState, some out)

/-- Embedding of `stop`: `throw new Error("Not implemented")`, touching no
state. -/
def stop (s : ChatState) : ChatState × Except String Unit :=
  (s, Except.error "Not implemented")

/-- Concatenation of delta fragments in emission order. -/
def concatAll : List String → String
  | [] => ""
  | d :: ds => d ++ concatAll ds

/-- A converted GraphQL runtime message arriving at `UnifyAdapter.process`:
a `TextMessage` (id, timestamp, role, content) or one of the other
converted kinds, which carry no role/content pair. -/
inductive RuntimeMessage where
  | textMessage (id : String) (createdAt : Nat) (role : String) (content : String)
  | actionExecutionMessage (id : String) (name : String) (arguments : String)
  | resultMessage (id : String) (actionName : String) (result : String)
  | agentStateMessage (id : String) (agentName : String) (state : String)
  deriving DecidableEq

/-- The `m instanceof TextMessage` test. -/
def isTextMessage : RuntimeMessage → Bool
  | .textMessage _ _ _ _ => true
  | _ => false

/-- The `{ role, content }` pair handed to the provider SDK. -/
structure ProviderMessage where
  role : String
  content : String
  deriving DecidableEq

/-- The `role` field (only `TextMessage` has one). -/
def msgRole : RuntimeMessage → String
  | .textMessage _ _ r _ => r
  | _ => ""

/-- The `content` field (only `TextMessage` has one). -/
def msgContent : RuntimeMessage → String
  | .textMessage _ _ _ c => c
  | _ => ""

/-- Embedding of the message preparation in `UnifyAdapter.process`:
`request.messages.filter((m) => m instanceof TextMessage)` mapped to
`{ role: m.role, content: m.content }`. -/
def unifyProcessMessages (ms : List RuntimeMessage) : List ProviderMessage :=
  (ms.filter isTextMessage).map (fun m => ⟨msgRole m, msgContent m⟩)

end CopilotChat

namespace CopilotChat

/-- Once `cleanup` has detached the listeners, folding any further events
leaves the turn context unchanged. -/
theorem foldl_detached (captured : List Message) (aid : String) (now : Nat)
    (t : TurnExec) (events : List ClientEvent) (h : t.attached = false) :
    events.foldl (handleEvent captured aid now) t = t := by
  induction events with
  | nil => rfl
  | cons e es ih =>
      have : handleEvent captured aid now t e = t := by
        simp [handleEvent, h]
      rw [List.foldl_cons, this, ih]

/-- Folding a run of `content` events over an attached turn context whose
published list already has the canonical `[...captured, assistant]` shape
appends the concatenated deltas to the pending content and republishes. -/
theorem foldl_content (captured : List Message) (aid : String) (now : Nat)
    (deltas : List String) (t : TurnExec)
    (hatt : t.attached = true)
    (hmsg : t.chat.messages =
      captured ++ [mkAssistantMessage aid now t.assistantContent t.assistantFC]) :
    (deltas.map ClientEvent.content).foldl (handleEvent captured aid now) t =
      ⟨⟨captured ++
          [mkAssistantMessage aid now (t.assistantContent ++ concatAll deltas) t.assistantFC],
        t.chat.isLoading⟩,
       t.assistantContent ++ concatAll deltas, t.assistantFC, t.attached, t.outcome⟩ := by
  induction deltas generalizing t with
  | nil =>
      simp only [List.map_nil, List.foldl_nil, concatAll, String.append_empty, ← hmsg]
  | cons d ds ih =>
      simp only [List.map_cons, List.foldl_cons]
      have step : handleEvent captured aid now t (ClientEvent.content d) =
          ⟨⟨captured ++ [mkAssistantMessage aid now (t.assistantContent ++ d) t.assistantFC],
            t.chat.isLoading⟩,
           t.assistantContent ++ d, t.assistantFC, t.attached, t.outcome⟩ := by
        simp [handleEvent, hatt]
      rw [step,
        ih ⟨⟨captured ++ [mkAssistantMessage aid now (t.assistantContent ++ d) t.assistantFC],
              t.chat.isLoading⟩,
            t.assistantContent ++ d, t.assistantFC, t.attached, t.outcome⟩ hatt rfl]
      simp [concatAll, String.append_assoc]

/-- Folding the `content` deltas of a turn from the context
`runChatCompletion` starts with accumulates exactly their concatenation
into the pending assistant message and republishes it. -/
theorem foldl_content_init (captured : List Message) (aid : String) (now : Nat)
    (deltas : List String) :
    (deltas.map ClientEvent.content).foldl (handleEvent captured aid now)
        ⟨⟨captured ++ [mkAssistantMessage aid now "" none], true⟩, "", none, true, none⟩ =
      ⟨⟨captured ++ [mkAssistantMessage aid now (concatAll deltas) none], true⟩,
       concatAll deltas, none, true, none⟩ := by
  have h := foldl_content captured aid now deltas
    ⟨⟨captured ++ [mkAssistantMessage aid now "" none], true⟩, "", none, true, none⟩ rfl rfl
  simpa [String.empty_append] using h

/-- C1: failing input for the claim.  From the empty non-loading state
with no system messages, `append` of the user message `"hi"` starts a
turn whose fetch body is `[]`: the newly appended message is missing from
the request, because the render-scope `messages` closure predates the
queued `setMessages`; after the streamed deltas `"He"`, `"llo"` and
`end`, the final state holds only the assistant message `"Hello"`, so the
appended message does not survive in state either. -/
theorem append_request_drops_new_message :
    Option.map (fun out => out.fetchBody.messages)
        (append ⟨[], []⟩ "a1" 1 ⟨[], false⟩ ⟨"m1", 0, "user", "hi", none⟩
          [ClientEvent.content "He", ClientEvent.content "llo",
           ClientEvent.endStream]).2 =
      some [] ∧
    (append ⟨[], []⟩ "a1" 1 ⟨[], false⟩ ⟨"m1", 0, "user", "hi", none⟩
        [ClientEvent.content "He", ClientEvent.content "llo",
         ClientEvent.endStream]).1.messages =
      [mkAssistantMessage "a1" 1 "Hello" none] := by
  constructor <;> rfl

/-- C4: `append` while `isLoading` is true leaves the state unchanged and
issues no request. -/
theorem append_noop_while_loading (options : UseChatOptions) (aid : String)
    (now : Nat) (s : ChatState) (message : Message) (events : List ClientEvent)
    (h : s.isLoading = true) :
    append options aid now s message events = (s, none) := by
  simp [append, h]

/-- Witness for C4 at a concrete loading state. -/
theorem append_noop_while_loading_witness :
    append ⟨[], []⟩ "a1" 0 ⟨[⟨"m1", 0, "user", "hi", none⟩], true⟩
        ⟨"m2", 1, "user", "more", none⟩ [] =
      (⟨[⟨"m1", 0, "user", "hi", none⟩], true⟩, none) :=
  append_noop_while_loading ⟨[], []⟩ "a1" 0 ⟨[⟨"m1", 0, "user", "hi", none⟩], true⟩
    ⟨"m2", 1, "user", "more", none⟩ [] rfl

/-- C6: `reload` on an empty history, or while loading, is a no-op: no
request is issued and the state (messages and the loading flag) is
unchanged. -/
theorem reload_noop_empty_or_loading (options : UseChatOptions) (aid : String)
    (now : Nat) (s : ChatState) (events : List ClientEvent)
    (h : s.isLoading = true ∨ s.messages = []) :
    reload options aid now s events = (s, none) := by
  rcases h with h | h <;> simp [reload, h]

/-- Witness for C6 on the empty, non-loading state. -/
theorem reload_noop_empty_or_loading_witness :
    reload ⟨[], []⟩ "a1" 0 ⟨[], false⟩ [] = (⟨[], false⟩, none) :=
  reload_noop_empty_or_loading ⟨[], []⟩ "a1" 0 ⟨[], false⟩ [] (Or.inr rfl)

/-- C5: failing input for the claim.  On the non-loading two-message
history `[user "hi", assistant "yo"]` (no system messages), `reload`
starts a turn whose fetch body still contains the assistant message
`"yo"`: the `messages.slice(0, -1)` update is only queued, and the
render-scope `messages` closure `runChatCompletion` reads is the unsliced
list, so the supposedly removed assistant message is re-sent to the
provider. -/
theorem reload_request_keeps_assistant :
    Option.map (fun out => out.fetchBody.messages)
        (reload ⟨[], []⟩ "a1" 2
          ⟨[⟨"m1", 0, "user", "hi", none⟩, ⟨"m2", 1, "assistant", "yo", none⟩],
           false⟩ []).2 =
      some [⟨"m1", 0, "user", "hi", none⟩, ⟨"m2", 1, "assistant", "yo", none⟩] := by
  rfl

/-- C8: `stop` always fails with the `Not implemented` error and leaves
the hook state (messages and the loading flag) untouched. -/
theorem stop_always_fails (s : ChatState) :
    stop s = (s, Except.error "Not implemented") := rfl

/-- C2: for any sequence of `content` deltas followed by `end`, the turn
resolves with an assistant message whose content is the concatenation of
the deltas in emission order, that message is the last element of the
published list, and `isLoading` is false. -/
theorem content_then_end_resolves (options : UseChatOptions) (aid : String)
    (now : Nat) (s : ChatState) (deltas : List String) :
    (runChatCompletion options aid now s
        (deltas.map ClientEvent.content ++ [ClientEvent.endStream])).outcome =
      some (Except.ok (mkAssistantMessage aid now (concatAll deltas) none)) ∧
    (runChatCompletion options aid now s
        (deltas.map ClientEvent.content ++ [ClientEvent.endStream])).finalState.isLoading =
      false ∧
    (runChatCompletion options aid now s
        (deltas.map ClientEvent.content ++ [ClientEvent.endStream])).finalState.messages =
      s.messages ++ [mkAssistantMessage aid now (concatAll deltas) none] ∧
    (runChatCompletion options aid now s
        (deltas.map ClientEvent.content ++
          [ClientEvent.endStream])).finalState.messages.getLast? =
      some (mkAssistantMessage aid now (concatAll deltas) none) := by
  have hrun : (deltas.map ClientEvent.content ++ [ClientEvent.endStream]).foldl
      (handleEvent s.messages aid now)
      ⟨⟨s.messages ++ [mkAssistantMessage aid now "" none], true⟩, "", none, true, none⟩ =
      ⟨⟨s.messages ++ [mkAssistantMessage aid now (concatAll deltas) none], false⟩,
       concatAll deltas, none, false,
       some (Except.ok (mkAssistantMessage aid now (concatAll deltas) none))⟩ := by
    rw [List.foldl_append, foldl_content_init]
    simp [handleEvent]
  refine ⟨?_, ?_, ?_, ?_⟩ <;>
    simp [runChatCompletion, hrun, List.getLast?_concat]

/-- C3: a `function` event arriving before any terminal event resolves
the turn immediately with the call attached to the pending assistant
message and `isLoading` false; the listeners are detached, so any events
delivered afterwards leave the whole turn output unchanged. -/
theorem function_event_resolves_early (options : UseChatOptions) (aid : String)
    (now : Nat) (s : ChatState) (deltas : List String) (fc : FunctionCall)
    (post : List ClientEvent) :
    runChatCompletion options aid now s
        (deltas.map ClientEvent.content ++ ClientEvent.functionEvent fc :: post) =
      runChatCompletion options aid now s
        (deltas.map ClientEvent.content ++ [ClientEvent.functionEvent fc]) ∧
    (runChatCompletion options aid now s
        (deltas.map ClientEvent.content ++ [ClientEvent.functionEvent fc])).outcome =
      some (Except.ok (mkAssistantMessage aid now (concatAll deltas) (some fc))) ∧
    (runChatCompletion options aid now s
        (deltas.map ClientEvent.content ++
          [ClientEvent.functionEvent fc])).finalState.isLoading = false ∧
    (runChatCompletion options aid now s
        (deltas.map ClientEvent.content ++
          [ClientEvent.functionEvent fc])).listenersAttached = false ∧
    (runChatCompletion options aid now s
        (deltas.map ClientEvent.content ++
          [ClientEvent.functionEvent fc])).finalState.messages =
      s.messages ++ [mkAssistantMessage aid now (concatAll deltas) (some fc)] := by
  have hrun : (deltas.map ClientEvent.content ++ [ClientEvent.functionEvent fc]).foldl
      (handleEvent s.messages aid now)
      ⟨⟨s.messages ++ [mkAssistantMessage aid now "" none], true⟩, "", none, true, none⟩ =
      ⟨⟨s.messages ++ [mkAssistantMessage aid now (concatAll deltas) (some fc)], false⟩,
       concatAll deltas, some fc, false,
       some (Except.ok (mkAssistantMessage aid now (concatAll deltas) (some fc)))⟩ := by
    rw [List.foldl_append, foldl_content_init]
    simp [handleEvent]
  have hpost : (deltas.map ClientEvent.content ++
        ClientEvent.functionEvent fc :: post).foldl
      (handleEvent s.messages aid now)
      ⟨⟨s.messages ++ [mkAssistantMessage aid now "" none], true⟩, "", none, true, none⟩ =
      ⟨⟨s.messages ++ [mkAssistantMessage aid now (concatAll deltas) (some fc)], false⟩,
       concatAll deltas, some fc, false,
       some (Except.ok (mkAssistantMessage aid now (concatAll deltas) (some fc)))⟩ := by
    rw [show deltas.map ClientEvent.content ++ ClientEvent.functionEvent fc :: post =
        (deltas.map ClientEvent.content ++ [ClientEvent.functionEvent fc]) ++ post by
      simp, List.foldl_append, hrun]
    exact foldl_detached _ _ _ _ _ rfl
  refine ⟨?_, ?_, ?_, ?_, ?_⟩ <;> simp [runChatCompletion, hrun, hpost]

/-- C7: an `error` event rejects the turn with that error, sets
`isLoading` false and detaches all listeners, so any events delivered
afterwards leave the whole turn output unchanged. -/
theorem error_event_rejects (options : UseChatOptions) (aid : String)
    (now : Nat) (s : ChatState) (deltas : List String) (e : String)
    (post : List ClientEvent) :
    runChatCompletion options aid now s
        (deltas.map ClientEvent.content ++ ClientEvent.errorEvent e :: post) =
      runChatCompletion options aid now s
        (deltas.map ClientEvent.content ++ [ClientEvent.errorEvent e]) ∧
    (runChatCompletion options aid now s
        (deltas.map ClientEvent.content ++ [ClientEvent.errorEvent e])).outcome =
      some (Except.error e) ∧
    (runChatCompletion options aid now s
        (deltas.map ClientEvent.content ++
          [ClientEvent.errorEvent e])).finalState.isLoading = false ∧
    (runChatCompletion options aid now s
        (deltas.map ClientEvent.content ++
          [ClientEvent.errorEvent e])).listenersAttached = false := by
  have hrun : (deltas.map ClientEvent.content ++ [ClientEvent.errorEvent e]).foldl
      (handleEvent s.messages aid now)
      ⟨⟨s.messages ++ [mkAssistantMessage aid now "" none], true⟩, "", none, true, none⟩ =
      ⟨⟨s.messages ++ [mkAssistantMessage aid now (concatAll deltas) none], false⟩,
       concatAll deltas, none, false, some (Except.error e)⟩ := by
    rw [List.foldl_append, foldl_content_init]
    simp [handleEvent]
  have hpost : (deltas.map ClientEvent.content ++ ClientEvent.errorEvent e :: post).foldl
      (handleEvent s.messages aid now)
      ⟨⟨s.messages ++ [mkAssistantMessage aid now "" none], true⟩, "", none, true, none⟩ =
      ⟨⟨s.messages ++ [mkAssistantMessage aid now (concatAll deltas) none], false⟩,
       concatAll deltas, none, false, some (Except.error e)⟩ := by
    rw [show deltas.map ClientEvent.content ++ ClientEvent.errorEvent e :: post =
        (deltas.map ClientEvent.content ++ [ClientEvent.errorEvent e]) ++ post by
      simp, List.foldl_append, hrun]
    exact foldl_detached _ _ _ _ _ rfl
  refine ⟨?_, ?_, ?_, ?_⟩ <;> simp [runChatCompletion, hrun, hpost]

/-- C9: when at least one `content` delta arrived and the turn then ends
with an `error` event, the partially streamed assistant message (holding
the concatenation of the deltas received so far) remains the last element
of the published list: the error path rolls nothing back. -/
theorem error_keeps_streamed_tokens (options : UseChatOptions) (aid : String)
    (now : Nat) (s : ChatState) (deltas : List String) (e : String)
    (_h : deltas ≠ []) :
    (runChatCompletion options aid now s
        (deltas.map ClientEvent.content ++
          [ClientEvent.errorEvent e])).finalState.messages =
      s.messages ++ [mkAssistantMessage aid now (concatAll deltas) none] ∧
    (runChatCompletion options aid now s
        (deltas.map ClientEvent.content ++
          [ClientEvent.errorEvent e])).finalState.messages.getLast? =
      some (mkAssistantMessage aid now (concatAll deltas) none) ∧
    (runChatCompletion options aid now s
        (deltas.map ClientEvent.content ++ [ClientEvent.errorEvent e])).outcome =
      some (Except.error e) := by
  have hrun : (deltas.map ClientEvent.content ++ [ClientEvent.errorEvent e]).foldl
      (handleEvent s.messages aid now)
      ⟨⟨s.messages ++ [mkAssistantMessage aid now "" none], true⟩, "", none, true, none⟩ =
      ⟨⟨s.messages ++ [mkAssistantMessage aid now (concatAll deltas) none], false⟩,
       concatAll deltas, none, false, some (Except.error e)⟩ := by
    rw [List.foldl_append, foldl_content_init]
    simp [handleEvent]
  refine ⟨?_, ?_, ?_⟩ <;> simp [runChatCompletion, hrun, List.getLast?_concat]

/-- Witness for C9: deltas `"He"`, `"llo"` then an error leave the
partial assistant message `"Hello"` as the last published message. -/
theorem error_keeps_streamed_tokens_witness :
    (["He", "llo"] : List String) ≠ [] ∧
    ((runChatCompletion ⟨[], []⟩ "a1" 1 ⟨[⟨"m1", 0, "user", "hi", none⟩], false⟩
        ((["He", "llo"] : List String).map ClientEvent.content ++
          [ClientEvent.errorEvent "boom"])).finalState.messages =
      [⟨"m1", 0, "user", "hi", none⟩] ++
        [mkAssistantMessage "a1" 1 (concatAll ["He", "llo"]) none] ∧
    (runChatCompletion ⟨[], []⟩ "a1" 1 ⟨[⟨"m1", 0, "user", "hi", none⟩], false⟩
        ((["He", "llo"] : List String).map ClientEvent.content ++
          [ClientEvent.errorEvent "boom"])).finalState.messages.getLast? =
      some (mkAssistantMessage "a1" 1 (concatAll ["He", "llo"]) none) ∧
    (runChatCompletion ⟨[], []⟩ "a1" 1 ⟨[⟨"m1", 0, "user", "hi", none⟩], false⟩
        ((["He", "llo"] : List String).map ClientEvent.content ++
          [ClientEvent.errorEvent "boom"])).outcome =
      some (Except.error "boom")) :=
  ⟨by simp,
   error_keeps_streamed_tokens ⟨[], []⟩ "a1" 1
     ⟨[⟨"m1", 0, "user", "hi", none⟩], false⟩ ["He", "llo"] "boom" (by simp)⟩

/-- C10: `UnifyAdapter.process` forwards exactly the `TextMessage`s of
the request, each mapped to its `{role, content}` pair in original order;
every other message kind is dropped. -/
theorem unify_process_keeps_only_text (ms : List RuntimeMessage) :
    unifyProcessMessages ms =
      ms.filterMap (fun m =>
        match m with
        | .textMessage _ _ r c => some ⟨r, c⟩
        | _ => none) := by
  induction ms with
  | nil => rfl
  | cons m ms ih =>
      cases m <;>
        simp [unifyProcessMessages, isTextMessage, msgRole, msgContent,
          List.filter_cons, List.filterMap_cons] <;>
        simpa [unifyProcessMessages] using ih

end CopilotChat
